import Mathlib

set_option autoImplicit false

/-!
# Verification of the esx-boot signing tools

Shallow embedding of the two Python tools of the repository:

* `env/getkeys.py` — the certificate key locator (`process_key`): scans the
  flat node sequence produced by an external ASN.1 dump of a DER
  certificate, finds the signature-algorithm OID and the RSA public key
  BIT STRING, extracts modulus/exponent byte ranges and validates the
  modulus encoding.
* `env/sign.py` — the signing orchestrator: per-key backend dispatch
  (local / remote / cached-authority), cache verification, final
  attachment and artifact cleanup.

External tools (openssl asn1parse, sbsign, signc, sbattach, sbverify, cp)
are modelled as oracles: their outputs (node lists, success flags,
verification outcome) are inputs of the embedded functions.  Byte buffers
are `List Nat` (each element one byte).  Python's `exit(0)` inside the key
loop is modelled as a distinguished `skipExit` outcome, an uncaught
exception from `subprocess.check_call` / `check_output` as `fatal`.
-/

/-! ## getkeys.py : data model -/

/-- Hash algorithm names appearing in the `hash_algs` table of getkeys.py. -/
inductive HashAlg where
  | SHA256
  | SHA512
deriving DecidableEq, Repr

/-- The fixed `hash_algs` dictionary of getkeys.py (lines 35-39):
`sha1WithRSAEncryption -> SHA256`, `sha256WithRSAEncryption -> SHA256`,
`sha512WithRSAEncryption -> SHA512`; anything else is absent. -/
def hash_algs (s : String) : Option HashAlg :=
  if s = "sha1WithRSAEncryption" then some HashAlg.SHA256
  else if s = "sha256WithRSAEncryption" then some HashAlg.SHA256
  else if s = "sha512WithRSAEncryption" then some HashAlg.SHA512
  else none

/-- One structural node of the ASN.1 dump, as re-parsed by class `asn1line`
of getkeys.py: byte `offset` of the element, nesting depth `d`, header
length `hl`, content length `l`, tag kind `op` (e.g. "OBJECT", "INTEGER",
"BIT STRING") and decoded scalar `param`. -/
structure Asn1Line where
  offset : Nat
  d : Nat
  hl : Nat
  l : Nat
  op : String
  param : String
deriving DecidableEq, Repr

/-- Failure modes of `process_key`, one constructor per `raise ValueError`
site of getkeys.py, named after the spec's error vocabulary:
* `unexpectedOID` — "Unexpected OID found" (first OID not at depth 3);
* `keyNotAssociatedWithAlgorithm` — "Found bit string without associated OID";
* `unsupportedKeyAlgorithm` — "Key is not RSA key";
* `signatureAlgorithmMissing` — "Signature algorithm is not set";
* `unknownSignatureAlgorithm` — "Unknown signature algorithm %s";
* `keyMaterialMissing` — "RSA public key not present in certificate";
* `modulusExponentMissing` — "RSA key does not contain modulus and exponent";
* `invalidModulusEncoding` — "RSA modulus does not have ... valid bits". -/
inductive LocErr where
  | unexpectedOID
  | keyNotAssociatedWithAlgorithm
  | unsupportedKeyAlgorithm
  | signatureAlgorithmMissing
  | unknownSignatureAlgorithm (s : String)
  | keyMaterialMissing
  | modulusExponentMissing
  | invalidModulusEncoding
deriving DecidableEq, Repr

/-- Result of locating a key: the fields of the `args` dictionary that
`process_key` fills in (key name, hash, certificate length, absolute
modulus and exponent ranges). -/
structure ExtractedKeyInfo where
  key_name : String
  hash : HashAlg
  certLength : Nat
  modulusStart : Nat
  modulusLength : Nat
  exponentStart : Nat
  exponentLength : Nat
deriving DecidableEq, Repr

/-- First scan loop of `process_key` (getkeys.py lines 106-126) over the
certificate's node sequence.  State: `sigalg` (the first OBJECT's param,
once seen) and `lastObject` (the most recent OBJECT after the first).
On an OBJECT node: the first one must be at depth 3 and becomes `sigalg`;
later ones become `lastObject`.  On a BIT STRING node: `lastObject` must
exist with `tag.d + 1 = lastObject.d`, its param must be `rsaEncryption`,
and the scan stops returning `(sigalg, some (offset+hl+1, l-1))`.
Falling off the end with no `sigalg` (and a BIT STRING accepted while
`sigalg` is unset) is `signatureAlgorithmMissing`, matching the
`if sigalg is None: raise` check right after the loop. -/
def scanCert : List Asn1Line → Option String → Option Asn1Line →
    Except LocErr (String × Option (Nat × Nat))
  | [], none, _ => .error .signatureAlgorithmMissing
  | [], some sa, _ => .ok (sa, none)
  | t :: rest, sigalg, lastObject =>
    if t.op = "OBJECT" then
      match sigalg with
      | none => if t.d ≠ 3 then .error .unexpectedOID
                else scanCert rest (some t.param) lastObject
      | some _ => scanCert rest sigalg (some t)
    else if t.op = "BIT STRING" then
      match lastObject with
      | none => .error .keyNotAssociatedWithAlgorithm
      | some lo =>
        if t.d + 1 ≠ lo.d then .error .keyNotAssociatedWithAlgorithm
        else if lo.param ≠ "rsaEncryption" then .error .unsupportedKeyAlgorithm
        else
          match sigalg with
          | none => .error .signatureAlgorithmMissing
          | some sa => .ok (sa, some (t.offset + t.hl + 1, t.l - 1))
    else scanCert rest sigalg lastObject

/-- Second scan loop of `process_key` (getkeys.py lines 148-158) over the
node sequence of the embedded key blob: the first INTEGER is the modulus,
the second is the exponent (scan stops there); offsets are translated to
absolute positions by adding `base = key_loc[0]`.  No second INTEGER is
"RSA key does not contain modulus and exponent". -/
def scanKey (base : Nat) : List Asn1Line → Option (Nat × Nat) →
    Except LocErr ((Nat × Nat) × (Nat × Nat))
  | [], _ => .error .modulusExponentMissing
  | t :: rest, m =>
    if t.op = "INTEGER" then
      match m with
      | none => scanKey base rest (some (base + t.offset + t.hl, t.l))
      | some mo => .ok (mo, (base + t.offset + t.hl, t.l))
    else scanKey base rest m

/-- Core of `process_key` (getkeys.py lines 90-170), with the two external
`parse_der` invocations replaced by their results: `der_info` is the node
sequence of the certificate `der`, `key_info` the node sequence of the key
blob slice `der[key_loc[0] : key_loc[0]+key_loc[1]]`.  Order of checks as
in the source: scan, then `hash_algs` lookup (unknown algorithm), then the
`key_loc is None` check, then the modulus/exponent scan, then the modulus
encoding validation (length ≥ 2, first byte 0, second byte ≥ 128).  Byte
access is total with default 0 (the source would raise `IndexError` out of
range; no theorem below exercises that case). -/
def process_key (der : List Nat) (der_info key_info : List Asn1Line)
    (key_name : String) : Except LocErr ExtractedKeyInfo :=
  match scanCert der_info none none with
  | .error e => .error e
  | .ok (sigalg, keyLoc?) =>
    match hash_algs sigalg with
    | none => .error (.unknownSignatureAlgorithm sigalg)
    | some h =>
      match keyLoc? with
      | none => .error .keyMaterialMissing
      | some keyLoc =>
        match scanKey keyLoc.1 key_info none with
        | .error e => .error e
        | .ok ((mOff, mLen), (eOff, eLen)) =>
          if mLen < 2 ∨ der.getD mOff 0 ≠ 0 ∨ der.getD (mOff + 1) 0 < 128 then
            .error .invalidModulusEncoding
          else
            .ok ⟨key_name, h, der.length, mOff, mLen, eOff, eLen⟩

/-! ## sign.py : data model -/

/-- Substring test: Python's `key.find(pat) >= 0` (sign.py lines 114-115)
is true exactly when `pat` occurs contiguously in `key`. -/
def containsSub (s pat : String) : Bool :=
  s.data.tails.any (fun t => pat.data.isPrefixOf t)

/-- The `vmware` flag of the key loop (sign.py line 114), the spec's
"vendor-trust key" classification. -/
def isVendorTrustKey (key : String) : Bool := containsSub key "vmware"

/-- The `uefi` flag of the key loop (sign.py line 115), the spec's
"authority key" classification. -/
def isAuthorityKey (key : String) : Bool := containsSub key "uefi"

/-- `signame` (sign.py lines 29-30): file name of the detached signature
for `(iname, key)`. -/
def signame (iname key : String) : String := iname ++ "@" ++ key ++ ".tmp"

/-- The temporary file name used by `remotesign` (sign.py line 47). -/
def remoteTmpName (iname key : String) : String := iname ++ "-" ++ key ++ ".tmp"

/-- Outcome of the external `sbverify` invocation (`subprocess.check_output`
at sign.py lines 80-83): either it succeeds, or it raises
`CalledProcessError` carrying the captured output text. -/
inductive VerifyRes where
  | ok
  | failed (output : String)
deriving DecidableEq, Repr

/-- The exact output text that `cachedsign` compares `e.output` against
(sign.py line 85) to recognize a signature mismatch. -/
def verifyFailMsg : String := "Signature verification failed\n"

/-- Message printed when no cached signature exists (sign.py line 70),
with `%s` resolved to the fixed key `uefi_ca`. -/
def uefiNoCacheMsg : String := "Skipped signing with uefi_ca; no cached signature"

/-- Warning printed when the cached signature fails verification
(sign.py lines 86-89), with `%s` resolved to `uefi_ca`. -/
def uefiInvalidMsg : String :=
  "Skipped signing with uefi_ca; cached signature is invalid\n*** This build cannot be used in an official ESXi release.\n*** See https://wiki.eng.vmware.com/ESXSecureBoot/UEFI-CA-Signing\n"

/-- Message printed when a vendor key is requested on a developer build
(sign.py line 117). -/
def devBuildMsg (key : String) : String :=
  "Skipped signing with " ++ key ++ "; developer build"

/-- Oracle for the external world of one sign.py run: the
`SIGN_RELEASE_BINARIES` flag and the success/failure of each external
tool invocation.  `cachedsign` takes no key-dependent input in the
source (it always uses the same cache file and certificate), so its
oracles are key-independent, faithfully. -/
structure SignEnv where
  official : Bool
  localsignOk : String → Bool
  signcOk : String → Bool
  remoteDetachOk : String → Bool
  cacheExists : Bool
  cacheAttachOk : Bool
  verify : VerifyRes
  copyOk : Bool
  attachOk : String → Bool

/-- Mutable state of a run: the set of files currently present (artifact
and temporary files) and the messages printed so far. -/
structure RunState where
  files : List String
  msgs : List String
deriving DecidableEq, Repr

/-- Creating a file: idempotent insertion (the filesystem has no
duplicate names). -/
def addFile (n : String) (files : List String) : List String :=
  if n ∈ files then files else n :: files

/-- `os.remove` of one file name. -/
def removeFile (n : String) (files : List String) : List String :=
  files.filter (fun f => !(f == n))

/-- `cleanup` (sign.py lines 97-102): best-effort removal of
`signame(iname, key)` for every key in `keys`, errors ignored. -/
def cleanup (iname : String) (keys : List String) (files : List String) :
    List String :=
  files.filter (fun f => !(keys.any (fun k => f == signame iname k)))

/-- Outcome of processing one key (or a prefix of the key list):
`cont` — control flows on; `skipExit` — the script called `exit(0)`
(process terminates with status 0); `fatal` — an uncaught exception
(`subprocess.CalledProcessError`) terminates the process abnormally. -/
inductive StepRes where
  | cont (s : RunState)
  | skipExit (s : RunState)
  | fatal (s : RunState)
deriving DecidableEq, Repr

/-- `localsign` (sign.py lines 35-42): one `sbsign` call producing
`signame(iname, key)`; a non-zero exit is an uncaught exception. -/
def localsign (env : SignEnv) (iname key : String) (s : RunState) : StepRes :=
  if env.localsignOk key then
    .cont { s with files := addFile (signame iname key) s.files }
  else .fatal s

/-- `remotesign` (sign.py lines 46-57): `signc` writes the temporary file,
`sbattach --detach` converts it into `signame(iname, key)`, then the
temporary file is removed.  Failure of either call is an uncaught
exception (leaving the temporary file behind in the second case). -/
def remotesign (env : SignEnv) (iname key : String) (s : RunState) : StepRes :=
  if env.signcOk key then
    let s1 : RunState := { s with files := addFile (remoteTmpName iname key) s.files }
    if env.remoteDetachOk key then
      .cont { s1 with
        files := removeFile (remoteTmpName iname key)
          (addFile (signame iname key) s1.files) }
    else .fatal s1
  else .fatal s

/-- `cachedsign` (sign.py lines 60-94).  The key is the fixed string
`uefi_ca` (line 61) regardless of the key name the loop dispatched on.
No cached file: print and `exit(0)` (no cleanup).  `sbattach --detach`
failure: uncaught exception.  Then `sbverify`: on success control
returns; on `CalledProcessError` with output exactly `verifyFailMsg`,
print the warning, `cleanup(iname, ['uefi_ca'])` and `exit(0)`; on any
other output, print it and re-raise. -/
def cachedsign (env : SignEnv) (iname : String) (s : RunState) : StepRes :=
  if env.cacheExists then
    if env.cacheAttachOk then
      let s1 : RunState := { s with files := addFile (signame iname "uefi_ca") s.files }
      match env.verify with
      | .ok => .cont s1
      | .failed out =>
        if out = verifyFailMsg then
          .skipExit { s1 with
            msgs := s1.msgs ++ [uefiInvalidMsg],
            files := cleanup iname ["uefi_ca"] s1.files }
        else .fatal { s1 with msgs := s1.msgs ++ [out] }
    else .fatal s
  else .skipExit { s with msgs := s.msgs ++ [uefiNoCacheMsg] }

/-- The per-key signing loop (sign.py lines 113-125), evaluated over the
remaining keys; `allKeys` is the full list (used by the developer-build
cleanup, line 118).  Branch order as in the source: the
developer-build check first, then `uefi`, then `vmware`, then local. -/
def processKeys (env : SignEnv) (iname : String) (allKeys : List String) :
    List String → RunState → StepRes
  | [], s => .cont s
  | key :: rest, s =>
    if !env.official && isVendorTrustKey key then
      .skipExit { s with
        msgs := s.msgs ++ [devBuildMsg key],
        files := cleanup iname allKeys s.files }
    else
      match
        (if isAuthorityKey key then cachedsign env iname s
         else if isVendorTrustKey key then remotesign env iname key s
         else localsign env iname key s) with
      | .cont s1 => processKeys env iname allKeys rest s1
      | r => r

/-- Observable result of a whole run: whether the process exited with
status 0, the files left behind, the messages printed, whether the output
binary was produced (the `cp -f` ran), and which keys' signatures were
attached to it, in order. -/
structure RunResult where
  exit0 : Bool
  files : List String
  msgs : List String
  outputProduced : Bool
  attached : List String
deriving DecidableEq, Repr

/-- The attach loop (sign.py lines 129-132) followed by the final
`cleanup` (line 134).  Each `sbattach --attach` reads
`signame(iname, key)`; it fails (uncaught exception, no cleanup) when
that file is missing or the tool itself fails.  `acc` is the list of
keys attached so far. -/
def attachKeys (env : SignEnv) (iname : String) (allKeys : List String) :
    List String → RunState → List String → RunResult
  | [], s, acc => ⟨true, cleanup iname allKeys s.files, s.msgs, true, acc⟩
  | key :: rest, s, acc =>
    if signame iname key ∈ s.files ∧ env.attachOk key = true then
      attachKeys env iname allKeys rest s (acc ++ [key])
    else ⟨false, s.files, s.msgs, true, acc⟩

/-- The whole sign.py run (lines 104-134) for a parsed key list: the
per-key loop, then `cp -f iname oname` (failure is fatal, output not
produced), then the attach loop and final cleanup. -/
def sign_main (env : SignEnv) (keys : List String) (iname : String) :
    RunResult :=
  match processKeys env iname keys keys ⟨[], []⟩ with
  | .skipExit s => ⟨true, s.files, s.msgs, false, []⟩
  | .fatal s => ⟨false, s.files, s.msgs, false, []⟩
  | .cont s =>
    if env.copyOk then attachKeys env iname keys keys s []
    else ⟨false, s.files, s.msgs, false, []⟩

/-! ## getkeys.py : certificate byte dump (lines 172-177) -/

/-- One lowercase hex digit, as produced by Python's `"%02x"` format. -/
def hexDigitChar (n : Nat) : Char :=
  if n < 10 then Char.ofNat (48 + n) else Char.ofNat (87 + n)

/-- The four characters `\xHH` that `"\\x%02x" % b` produces for one
byte `b < 256`. -/
def escByte (b : Nat) : List Char :=
  ['\\', 'x', hexDigitChar (b / 16), hexDigitChar (b % 16)]

/-- `''.join(["\\x%02x" % x for x in row])`: the escaped content of one
row of the dump. -/
def escRow : List Nat → List Char
  | [] => []
  | b :: bs => escByte b ++ escRow bs

/-- One full row string `      "...."` of `cert_rows`
(getkeys.py lines 174-176): six spaces, a double quote, the escaped
bytes, a closing double quote. -/
def rowEnc (row : List Nat) : List Char :=
  [' ', ' ', ' ', ' ', ' ', ' ', '"'] ++ escRow row ++ ['"']

/-- The 16-byte slices `der[x:x+16]` for `x in range(0, len(der), 16)`
(getkeys.py line 173). -/
def chunks16 (l : List Nat) : List (List Nat) :=
  if h : l = [] then []
  else l.take 16 :: chunks16 (l.drop 16)
termination_by l.length
decreasing_by
  simp only [List.length_drop]
  exact Nat.sub_lt (List.length_pos.mpr h) (by omega)

/-- The list of row strings appended to `cert_rows` for a DER buffer
(getkeys.py lines 172-176). -/
def cert_rows (der : List Nat) : List (List Char) :=
  (chunks16 der).map rowEnc

/-- Numeric value of one lowercase hex digit character. -/
def hexVal (c : Char) : Option Nat :=
  if 48 ≤ c.toNat ∧ c.toNat ≤ 57 then some (c.toNat - 48)
  else if 97 ≤ c.toNat ∧ c.toNat ≤ 102 then some (c.toNat - 87)
  else none

/-- Decoder for the escaped body of a row up to its closing quote:
reads `\xHH` groups until the single final `"`. -/
def unescapeQ : List Char → Option (List Nat)
  | ['"'] => some []
  | '\\' :: 'x' :: h1 :: h2 :: rest =>
    match hexVal h1, hexVal h2, unescapeQ rest with
    | some v1, some v2, some vs => some ((16 * v1 + v2) :: vs)
    | _, _, _ => none
  | _ => none

/-- Decoder for one full row: expects the six-space-and-quote prefix,
then the escaped body. -/
def decodeRow : List Char → Option (List Nat)
  | ' ' :: ' ' :: ' ' :: ' ' :: ' ' :: ' ' :: '"' :: rest => unescapeQ rest
  | _ => none

/-- Decoder for the whole dump: decode each row and concatenate. -/
def decodeRows : List (List Char) → Option (List Nat)
  | [] => some []
  | r :: rs =>
    match decodeRow r, decodeRows rs with
    | some bs, some rest => some (bs ++ rest)
    | _, _ => none

/-! ## Concrete fixtures -/

/-- A 14-byte DER buffer whose modulus bytes (offsets 7 and 8) are valid:
`der[7] = 0`, `der[8] = 128`. -/
def exDer : List Nat := [1, 2, 3, 4, 5, 6, 7, 0, 128, 9, 10, 11, 12, 13]

/-- Like `exDer` but with a non-zero modulus padding byte at offset 7. -/
def exDerBad : List Nat := [1, 2, 3, 4, 5, 6, 7, 1, 128, 9, 10, 11, 12, 13]

/-- Certificate node sequence of a well-formed RSA certificate: signature
OID at depth 3, then the key's `rsaEncryption` OID at depth 4 and its
BIT STRING sibling at depth 3 (`bit.d + 1 = oid.d`), with
`key_loc = (0 + 2 + 1, 10 - 1) = (3, 9)`. -/
def exCertNodes : List Asn1Line :=
  [⟨4, 3, 2, 13, "OBJECT", "sha256WithRSAEncryption"⟩,
   ⟨19, 4, 2, 9, "OBJECT", "rsaEncryption"⟩,
   ⟨0, 3, 2, 10, "BIT STRING", ""⟩]

/-- Key-blob node sequence: modulus INTEGER at local offset 2 (absolute
3 + 2 + 2 = 7, length 3) and exponent INTEGER at local offset 7
(absolute 12, length 1). -/
def exKeyNodes : List Asn1Line :=
  [⟨2, 1, 2, 3, "INTEGER", ""⟩, ⟨7, 1, 2, 1, "INTEGER", ""⟩]

/-- The key info `process_key` extracts from `exDer`/`exCertNodes`/
`exKeyNodes`. -/
def exInfo : ExtractedKeyInfo := ⟨"k", HashAlg.SHA256, 14, 7, 3, 12, 1⟩

/-- Signature OID node of the C5 counterexample certificate. -/
def c5Oid : Asn1Line := ⟨0, 3, 2, 50, "OBJECT", "sha256WithRSAEncryption"⟩

/-- The `lastObject` node (`rsaEncryption`, depth 4) of the C5
counterexample certificate. -/
def c5LastObject : Asn1Line := ⟨10, 4, 2, 9, "OBJECT", "rsaEncryption"⟩

/-- A BIT STRING at depth 5 = `c5LastObject.d + 1`: the placement the
claim calls correct. -/
def c5Bit : Asn1Line := ⟨21, 5, 2, 20, "BIT STRING", ""⟩

/-- Node sequence with the BIT STRING one level *deeper* than its OID. -/
def c5Nodes : List Asn1Line := [c5Oid, c5LastObject, c5Bit]

/-- Node sequence whose signature OID is outside the `hash_algs` table. -/
def c8BadNodes : List Asn1Line :=
  [⟨0, 3, 2, 5, "OBJECT", "md5WithRSAEncryption"⟩]

/-- A 20-byte DER buffer (two dump rows) for the round-trip witness. -/
def c9Der : List Nat :=
  [0, 1, 2, 3, 4, 5, 6, 7, 8, 9, 250, 251, 252, 253, 254, 255, 16, 17, 18, 19]

/-- Net effect on the filesystem of locally signing each key of `ks` in
order: the detached-signature artifact names added one by one. -/
def plainFiles (iname : String) (ks : List String) (fs : List String) :
    List String :=
  ks.foldl (fun acc k => addFile (signame iname k) acc) fs

/-- Environment in which every external tool succeeds, the run is
official, the cache exists and the cached signature verifies. -/
def envAllOk : SignEnv :=
  { official := true, localsignOk := fun _ => true, signcOk := fun _ => true,
    remoteDetachOk := fun _ => true, cacheExists := true,
    cacheAttachOk := true, verify := .ok, copyOk := true,
    attachOk := fun _ => true }

/-- Like `envAllOk` but `sbverify` reports a signature mismatch. -/
def envC1x : SignEnv := { envAllOk with verify := .failed verifyFailMsg }

/-- Like `envAllOk` but `sbverify` fails with an output other than the
mismatch text. -/
def envC1y : SignEnv :=
  { envAllOk with verify := .failed "sbverify: exec format error\n" }

/-- Like `envAllOk` but no cached signature exists. -/
def envC2x : SignEnv := { envAllOk with cacheExists := false }

/-- Like `envAllOk` but `sbsign` fails for every key except `k1`. -/
def envC4x : SignEnv := { envAllOk with localsignOk := fun k => k == "k1" }

/-- Like `envAllOk` but no cached signature exists (fixture of the C4
cleanup analysis). -/
def envC4nc : SignEnv := { envAllOk with cacheExists := false }

/-- Like `envAllOk` but the run is not official. -/
def envDevAllOk : SignEnv := { envAllOk with official := false }

/-! ## Theorems : certificate key locator -/

/-- C5, counterexample.  In `c5Nodes` the BIT STRING's depth equals
`lastObject.d + 1` — the placement the claim calls the only accepted
one — yet `process_key` fails with `KeyNotAssociatedWithAlgorithm`:
the source accepts exactly the opposite relation
(`tag.d + 1 = lastObject.d`, getkeys.py line 119). -/
theorem C5_counterexample :
    c5Bit.d = c5LastObject.d + 1 ∧
    process_key exDer c5Nodes exKeyNodes "k" =
      .error .keyNotAssociatedWithAlgorithm :=
  ⟨rfl, rfl⟩

/-- C5, amended.  When the scan meets a BIT STRING node `t` with a
tracked `lastObject` `lo`, it fails with `KeyNotAssociatedWithAlgorithm`
unless `t.d + 1 = lo.d` (the BIT STRING sits one level *shallower* than
the OID, its structural sibling-child in the source's sense); with the
relation satisfied and an RSA OID it succeeds immediately.  The failure
is immediate whatever nodes follow (`rest` arbitrary), and any such scan
failure is the result of `process_key`. -/
theorem C5_bitstring_depth (t lo : Asn1Line) (rest : List Asn1Line)
    (sa : String) (hop : t.op = "BIT STRING") :
    (t.d + 1 ≠ lo.d →
      scanCert (t :: rest) (some sa) (some lo) =
        .error .keyNotAssociatedWithAlgorithm) ∧
    (t.d + 1 = lo.d → lo.param = "rsaEncryption" →
      scanCert (t :: rest) (some sa) (some lo) =
        .ok (sa, some (t.offset + t.hl + 1, t.l - 1))) ∧
    (∀ der der_info key_info kn,
      scanCert der_info none none = .error .keyNotAssociatedWithAlgorithm →
      process_key der der_info key_info kn =
        .error .keyNotAssociatedWithAlgorithm) := by
  refine ⟨?_, ?_, ?_⟩
  · intro hd
    simp [scanCert, hop, hd]
  · intro hd hrsa
    simp [scanCert, hop, hd, hrsa]
  · intro der der_info key_info kn h
    simp [process_key, h]

/-- C5, witness for the amended theorem: a BIT STRING at depth 2 under a
`lastObject` at depth 4 is rejected, and at depth 3 it is accepted. -/
theorem C5_witness :
    scanCert [⟨21, 2, 2, 20, "BIT STRING", ""⟩] (some "sha256WithRSAEncryption")
        (some c5LastObject) = .error .keyNotAssociatedWithAlgorithm ∧
    scanCert [⟨21, 3, 2, 20, "BIT STRING", ""⟩] (some "sha256WithRSAEncryption")
        (some c5LastObject) = .ok ("sha256WithRSAEncryption", some (24, 19)) :=
  ⟨(C5_bitstring_depth ⟨21, 2, 2, 20, "BIT STRING", ""⟩ c5LastObject []
      "sha256WithRSAEncryption" rfl).1 (by decide),
   (C5_bitstring_depth ⟨21, 3, 2, 20, "BIT STRING", ""⟩ c5LastObject []
      "sha256WithRSAEncryption" rfl).2.1 (by decide) rfl⟩

/-- C6.  Modulus-encoding validation (getkeys.py lines 160-164): a
successful `process_key` implies the modulus encoding has length ≥ 2,
first byte `0x00` and second byte ≥ `0x80`; and whenever the scans
succeed but any of the three conditions fails, `process_key` returns
`InvalidModulusEncoding` (so no key info record is produced). -/
theorem C6_modulus_validation (der : List Nat) (di ki : List Asn1Line)
    (kn : String) :
    (∀ info, process_key der di ki kn = .ok info →
      2 ≤ info.modulusLength ∧ der.getD info.modulusStart 0 = 0 ∧
        128 ≤ der.getD (info.modulusStart + 1) 0) ∧
    (∀ sa kl h mo ml eo el,
      scanCert di none none = .ok (sa, some kl) →
      hash_algs sa = some h →
      scanKey kl.1 ki none = .ok ((mo, ml), (eo, el)) →
      (ml < 2 ∨ der.getD mo 0 ≠ 0 ∨ der.getD (mo + 1) 0 < 128) →
      process_key der di ki kn = .error .invalidModulusEncoding) := by
  constructor
  · intro info hok
    unfold process_key at hok
    cases hsc : scanCert di none none with
    | error e => simp only [hsc] at hok; exact Except.noConfusion hok
    | ok p =>
      obtain ⟨sa, klo⟩ := p
      simp only [hsc] at hok
      cases hha : hash_algs sa with
      | none => simp only [hha] at hok; exact Except.noConfusion hok
      | some h =>
        simp only [hha] at hok
        cases klo with
        | none => exact Except.noConfusion hok
        | some kl =>
          cases hsk : scanKey kl.1 ki none with
          | error e => simp only [hsk] at hok; exact Except.noConfusion hok
          | ok q =>
            obtain ⟨⟨mo, ml⟩, eo, el⟩ := q
            simp only [hsk] at hok
            by_cases hcond : ml < 2 ∨ der.getD mo 0 ≠ 0 ∨ der.getD (mo + 1) 0 < 128
            · rw [if_pos hcond] at hok; exact Except.noConfusion hok
            · rw [if_neg hcond] at hok
              push_neg at hcond
              obtain ⟨h1, h2, h3⟩ := hcond
              injection hok with hok
              subst hok
              exact ⟨(by omega : 2 ≤ ml), h2, h3⟩
  · intro sa kl h mo ml eo el hsc hha hsk hcond
    unfold process_key
    simp only [hsc, hha, hsk]
    rw [if_pos hcond]

/-- C6, witness: the valid fixture satisfies the three conditions, and
flipping the padding byte (`exDerBad`) makes `process_key` fail with
`InvalidModulusEncoding`. -/
theorem C6_witness :
    (2 ≤ exInfo.modulusLength ∧ exDer.getD exInfo.modulusStart 0 = 0 ∧
      128 ≤ exDer.getD (exInfo.modulusStart + 1) 0) ∧
    process_key exDerBad exCertNodes exKeyNodes "k" =
      .error .invalidModulusEncoding :=
  ⟨(C6_modulus_validation exDer exCertNodes exKeyNodes "k").1 exInfo rfl,
   (C6_modulus_validation exDerBad exCertNodes exKeyNodes "k").2
     "sha256WithRSAEncryption" (3, 9) HashAlg.SHA256 7 3 12 1 rfl rfl rfl
     (by decide)⟩

/-- C8.  The signature-hash mapping is the fixed pure table of
getkeys.py lines 35-39; any OID name outside the table makes
`process_key` fail with `UnknownSignatureAlgorithm` (lines 132-135); and
`process_key` is a pure function, so locating the same certificate twice
yields identical results. -/
theorem C8_hash_mapping :
    hash_algs "sha1WithRSAEncryption" = some HashAlg.SHA256 ∧
    hash_algs "sha256WithRSAEncryption" = some HashAlg.SHA256 ∧
    hash_algs "sha512WithRSAEncryption" = some HashAlg.SHA512 ∧
    (∀ s, s ≠ "sha1WithRSAEncryption" → s ≠ "sha256WithRSAEncryption" →
      s ≠ "sha512WithRSAEncryption" → hash_algs s = none) ∧
    (∀ der di ki kn sa klo,
      scanCert di none none = .ok (sa, klo) → hash_algs sa = none →
      process_key der di ki kn = .error (.unknownSignatureAlgorithm sa)) ∧
    (∀ der di ki kn, process_key der di ki kn = process_key der di ki kn) := by
  refine ⟨rfl, rfl, rfl, ?_, ?_, fun _ _ _ _ => rfl⟩
  · intro s h1 h2 h3
    simp [hash_algs, h1, h2, h3]
  · intro der di ki kn sa klo hsc hha
    unfold process_key
    simp only [hsc, hha]

/-- C8, witness: an OID name outside the table is unmapped, and a
certificate carrying it is rejected with `UnknownSignatureAlgorithm`. -/
theorem C8_witness :
    hash_algs "md5WithRSAEncryption" = none ∧
    process_key exDer c8BadNodes exKeyNodes "k" =
      .error (.unknownSignatureAlgorithm "md5WithRSAEncryption") :=
  ⟨C8_hash_mapping.2.2.2.1 "md5WithRSAEncryption" (by decide) (by decide)
     (by decide),
   C8_hash_mapping.2.2.2.2.1 exDer c8BadNodes exKeyNodes "k"
     "md5WithRSAEncryption" none rfl (by decide)⟩

/-! ## Theorems : certificate byte dump round-trip -/

/-- `hexVal` inverts `hexDigitChar` on one hex digit. -/
theorem hexVal_hexDigitChar : ∀ n < 16, hexVal (hexDigitChar n) = some n := by
  decide

/-- `unescapeQ` inverts `escRow` followed by the closing quote. -/
theorem unescapeQ_escRow : ∀ (r : List Nat), (∀ b ∈ r, b < 256) →
    unescapeQ (escRow r ++ ['"']) = some r := by
  intro r
  induction r with
  | nil => intro _; rfl
  | cons b bs ih =>
    intro h
    have hb : b < 256 := h b (List.mem_cons_self b bs)
    have h1 : hexVal (hexDigitChar (b / 16)) = some (b / 16) :=
      hexVal_hexDigitChar (b / 16)
        ((Nat.div_lt_iff_lt_mul (by omega)).mpr (by omega))
    have h2 : hexVal (hexDigitChar (b % 16)) = some (b % 16) :=
      hexVal_hexDigitChar (b % 16) (Nat.mod_lt b (by omega))
    have ihh : unescapeQ (escRow bs ++ ['"']) = some bs :=
      ih (fun x hx => h x (List.mem_cons_of_mem b hx))
    simp only [escRow, escByte, List.cons_append, List.nil_append,
      List.append_assoc]
    simp only [unescapeQ, h1, h2, ihh]
    rw [Nat.div_add_mod]

/-- `decodeRow` inverts `rowEnc`. -/
theorem decodeRow_rowEnc (r : List Nat) (h : ∀ b ∈ r, b < 256) :
    decodeRow (rowEnc r) = some r := by
  simp only [rowEnc, List.cons_append, List.nil_append]
  simp only [decodeRow]
  exact unescapeQ_escRow r h

/-- Unfolding equation of `chunks16`. -/
theorem chunks16_eq (l : List Nat) :
    chunks16 l = if l = [] then [] else l.take 16 :: chunks16 (l.drop 16) := by
  by_cases h : l = [] <;> rw [chunks16] <;> simp [h]

/-- C9.  Round-trip: decoding the sequence of 16-byte `\xHH`-escaped
rows emitted for a DER buffer (getkeys.py lines 172-177) reconstructs
the buffer byte-for-byte (each element of the buffer is one byte,
i.e. < 256). -/
theorem C9_cert_dump_roundtrip (der : List Nat)
    (hb : ∀ b ∈ der, b < 256) :
    decodeRows (cert_rows der) = some der := by
  generalize hlen : der.length = n
  induction n using Nat.strong_induction_on generalizing der with
  | _ n ih =>
    by_cases hd : der = []
    · subst hd
      simp [cert_rows, chunks16_eq, decodeRows]
    · have h1 : decodeRow (rowEnc (der.take 16)) = some (der.take 16) :=
        decodeRow_rowEnc _ (fun b hbm => hb b (List.take_subset 16 der hbm))
      have hlt : (der.drop 16).length < n := by
        rw [List.length_drop]
        have hp : 0 < der.length := List.length_pos.mpr hd
        omega
      have h2 : decodeRows (cert_rows (der.drop 16)) = some (der.drop 16) :=
        ih (der.drop 16).length hlt (der.drop 16)
          (fun b hbm => hb b (List.drop_subset 16 der hbm)) rfl
      calc decodeRows (cert_rows der)
          = decodeRows (rowEnc (der.take 16) :: cert_rows (der.drop 16)) := by
            rw [cert_rows, chunks16_eq, if_neg hd, List.map_cons]
            rfl
        _ = some (der.take 16 ++ der.drop 16) := by
            simp only [decodeRows, h1, h2]
        _ = some der := by rw [List.take_append_drop]

/-- C9, witness: round-trip on the concrete two-row buffer `c9Der`. -/
theorem C9_witness :
    (∀ b ∈ c9Der, b < 256) ∧ decodeRows (cert_rows c9Der) = some c9Der :=
  ⟨by decide, C9_cert_dump_roundtrip c9Der (by decide)⟩

/-! ## Theorems : signing orchestrator -/

/-- Membership in `addFile`. -/
theorem mem_addFile {f n : String} {fs : List String} :
    f ∈ addFile n fs ↔ f = n ∨ f ∈ fs := by
  unfold addFile
  split
  · rename_i hmem
    constructor
    · exact fun hf => Or.inr hf
    · rintro (rfl | hf)
      · exact hmem
      · exact hf
  · simp [List.mem_cons]

/-- `addFile` on the empty list. -/
theorem addFile_nil (n : String) : addFile n [] = [n] := by
  simp [addFile]

/-- Character-level shape of `signame`. -/
theorem signame_data (iname key : String) :
    (signame iname key).data = iname.data ++ '@' :: (key.data ++ ".tmp".data) := by
  show (iname ++ "@" ++ key ++ ".tmp").data = _
  rw [String.data_append, String.data_append, String.data_append]
  rw [show "@".data = ['@'] from rfl]
  simp [List.append_assoc]

/-- Character-level shape of `remoteTmpName`. -/
theorem remoteTmpName_data (iname key : String) :
    (remoteTmpName iname key).data =
      iname.data ++ '-' :: (key.data ++ ".tmp".data) := by
  show (iname ++ "-" ++ key ++ ".tmp").data = _
  rw [String.data_append, String.data_append, String.data_append]
  rw [show "-".data = ['-'] from rfl]
  simp [List.append_assoc]

/-- A detached-signature artifact name is never a `remotesign` temporary
name (for the same input binary): they differ at the separator. -/
theorem signame_ne_remoteTmpName (iname q k : String) :
    signame iname q ≠ remoteTmpName iname k := by
  intro h
  have hd := congrArg String.data h
  rw [signame_data, remoteTmpName_data] at hd
  have h2 := List.append_cancel_left hd
  injection h2 with h3 _
  exact absurd h3 (by decide)

/-- `signame iname` is injective in the key name. -/
theorem signame_inj (iname : String) {k1 k2 : String}
    (h : signame iname k1 = signame iname k2) : k1 = k2 := by
  have hd := congrArg String.data h
  rw [signame_data, signame_data] at hd
  have h2 := List.append_cancel_left hd
  injection h2 with _ h3
  exact String.ext (List.append_cancel_right h3)

/-- `cleanup` deletes everything when every present file is an artifact
of one of the keys being cleaned. -/
theorem cleanup_eq_nil (iname : String) (allKeys fs : List String)
    (h : ∀ f ∈ fs, ∃ q ∈ allKeys, f = signame iname q) :
    cleanup iname allKeys fs = [] := by
  unfold cleanup
  rw [List.filter_eq_nil_iff]
  intro f hf
  obtain ⟨q, hq, rfl⟩ := h f hf
  simp [List.any_eq_true]
  exact ⟨q, hq, rfl⟩

/-- `cleanup` of a single key on exactly its artifact. -/
theorem cleanup_self (iname k : String) :
    cleanup iname [k] [signame iname k] = [] := by
  simp [cleanup]

/-- C1, counterexample.  With a cached signature present but failing
verification with the mismatch output, the run exits with status 0,
produces **no** output binary, attaches nothing (the second key `tkey`
is never processed) — contradicting the claim that the remaining keys
are processed and attached normally. -/
theorem C1_counterexample :
    (sign_main envC1x ["uefi_ca", "tkey"] "bin").exit0 = true ∧
    (sign_main envC1x ["uefi_ca", "tkey"] "bin").outputProduced = false ∧
    (sign_main envC1x ["uefi_ca", "tkey"] "bin").attached = [] := by
  decide

/-- C1, amended.  When the cached authority signature exists and the
verification tool reports exactly the mismatch output
(`Signature verification failed`), the orchestrator prints the warning,
removes that key's artifact and terminates the **whole run** with exit
status 0: no output binary is produced and the remaining keys are not
processed.  Any other failure output of the verification tool is fatal
(the exception propagates: non-zero exit, message echoed, artifact left
behind), distinguished from the mismatch case by the output text. -/
theorem C1_cached_mismatch_skips_run (env : SignEnv) (iname : String)
    (rest : List String) (out : String)
    (hc : env.cacheExists = true) (ha : env.cacheAttachOk = true)
    (hv : env.verify = .failed out) :
    (out = verifyFailMsg →
      sign_main env ("uefi_ca" :: rest) iname =
        ⟨true, [], [uefiInvalidMsg], false, []⟩) ∧
    (out ≠ verifyFailMsg →
      sign_main env ("uefi_ca" :: rest) iname =
        ⟨false, [signame iname "uefi_ca"], [out], false, []⟩) := by
  have hvm : isVendorTrustKey "uefi_ca" = false := by decide
  have hau : isAuthorityKey "uefi_ca" = true := by decide
  constructor
  · intro hout
    subst hout
    simp [sign_main, processKeys, hvm, hau, cachedsign, hc, ha, hv,
      addFile_nil, cleanup_self]
  · intro hout
    simp [sign_main, processKeys, hvm, hau, cachedsign, hc, ha, hv, hout,
      addFile_nil]

/-- C1, witness: concrete mismatch run (exit 0, no output) and concrete
other-error run (fatal). -/
theorem C1_witness :
    sign_main envC1x ["uefi_ca", "k2"] "bin" =
      ⟨true, [], [uefiInvalidMsg], false, []⟩ ∧
    sign_main envC1y ["uefi_ca"] "bin" =
      ⟨false, [signame "bin" "uefi_ca"], ["sbverify: exec format error\n"],
        false, []⟩ :=
  ⟨(C1_cached_mismatch_skips_run envC1x "bin" ["k2"] verifyFailMsg
      rfl rfl rfl).1 rfl,
   (C1_cached_mismatch_skips_run envC1y "bin" [] "sbverify: exec format error\n"
      rfl rfl rfl).2 (by decide)⟩

/-- C2, counterexample.  A run `["tkey", "uefi_ca"]` with no cached
signature exits with status 0 but produces **no** output binary, attaches
nothing, and leaves `tkey`'s artifact behind — contradicting the claim
that the run completes with an output binary that merely omits the
authority key's signature and that other keys are unaffected. -/
theorem C2_counterexample :
    (sign_main envC2x ["tkey", "uefi_ca"] "bin").exit0 = true ∧
    (sign_main envC2x ["tkey", "uefi_ca"] "bin").outputProduced = false ∧
    (sign_main envC2x ["tkey", "uefi_ca"] "bin").attached = [] ∧
    (sign_main envC2x ["tkey", "uefi_ca"] "bin").files =
      [signame "bin" "tkey"] := by
  decide

/-- C2, amended.  When no cached signature blob exists, the authority
backend prints a notice and terminates the whole run immediately with
exit status 0: no output binary is produced, the remaining keys are not
processed, and artifacts already created (here the preceding plain key's)
are **not** cleaned up. -/
theorem C2_no_cached_signature_exits (env : SignEnv) (iname k0 : String)
    (rest : List String) (h0v : isVendorTrustKey k0 = false)
    (h0u : isAuthorityKey k0 = false) (hl : env.localsignOk k0 = true)
    (hc : env.cacheExists = false) :
    sign_main env (k0 :: "uefi_ca" :: rest) iname =
      ⟨true, [signame iname k0], [uefiNoCacheMsg], false, []⟩ := by
  have hvm : isVendorTrustKey "uefi_ca" = false := by decide
  have hau : isAuthorityKey "uefi_ca" = true := by decide
  simp [sign_main, processKeys, h0v, h0u, hvm, hau, localsign, hl,
    cachedsign, hc, addFile_nil]

/-- C2, witness: concrete run of the amended statement. -/
theorem C2_witness :
    sign_main envC2x ["tkey", "uefi_ca"] "bin" =
      ⟨true, [signame "bin" "tkey"], [uefiNoCacheMsg], false, []⟩ :=
  C2_no_cached_signature_exits envC2x "bin" "tkey" [] (by decide) (by decide)
    rfl rfl

/-- C7, counterexample.  The two classification flags are substring
tests; the key name `vmwareuefi` contains both markers, so it is
classified as both a vendor-trust key and an authority key —
contradicting the claimed mutual exclusivity. -/
theorem C7_counterexample :
    isVendorTrustKey "vmwareuefi" = true ∧
    isAuthorityKey "vmwareuefi" = true := by
  decide

/-- C7, amended.  The flags are not mutually exclusive (see the
counterexample), but dispatch is still a function: on an official run a
key carrying both markers is handled by the authority (cached) backend,
because the `uefi` branch is tested before the `vmware` branch
(sign.py lines 120-123). -/
theorem C7_flag_overlap_dispatch (k : String) (env : SignEnv)
    (iname : String) (allKeys rest : List String) (s : RunState)
    (hv : isVendorTrustKey k = true) (hu : isAuthorityKey k = true)
    (ho : env.official = true) :
    processKeys env iname allKeys (k :: rest) s =
      (match cachedsign env iname s with
       | .cont s1 => processKeys env iname allKeys rest s1
       | r => r) := by
  simp [processKeys, hv, hu, ho]

/-- C7, witness: the doubly-marked key `vmwareuefi` dispatches to the
cached-authority backend on an official run. -/
theorem C7_witness :
    processKeys envAllOk "bin" ["vmwareuefi"] ["vmwareuefi"] ⟨[], []⟩ =
      (match cachedsign envAllOk "bin" ⟨[], []⟩ with
       | .cont s1 => processKeys envAllOk "bin" ["vmwareuefi"] [] s1
       | r => r) :=
  C7_flag_overlap_dispatch "vmwareuefi" envAllOk "bin" ["vmwareuefi"] []
    ⟨[], []⟩ (by decide) (by decide) rfl

/-- C10.  The cache backend ignores the requested key name: on success
it creates exactly the artifact `signame iname "uefi_ca"`
(sign.py lines 61-63, 73).  For any authority key named differently,
that file name differs from the `signame iname k` the final attach loop
reads (lines 129-132), so the attach step fails when nothing else
created that file. -/
theorem C10_cached_fixed_label (env : SignEnv) (iname k : String)
    (s : RunState) (hc : env.cacheExists = true)
    (ha : env.cacheAttachOk = true) (hv : env.verify = .ok)
    (hk : k ≠ "uefi_ca") :
    cachedsign env iname s =
      .cont { s with files := addFile (signame iname "uefi_ca") s.files } ∧
    signame iname k ≠ signame iname "uefi_ca" ∧
    (∀ allKeys rest acc, signame iname k ∉ s.files →
      attachKeys env iname allKeys (k :: rest) s acc =
        ⟨false, s.files, s.msgs, true, acc⟩) := by
  refine ⟨?_, ?_, ?_⟩
  · simp [cachedsign, hc, ha, hv]
  · intro h
    exact hk (signame_inj iname h)
  · intro allKeys rest acc hmem
    simp [attachKeys, hmem]

/-- C10, witness: for the authority key `uefi_db`, the cache backend
still creates the `uefi_ca`-labelled artifact, whose name differs from
the one the attach loop would read, and the attach step fails on the
state the backend produced for a fresh run. -/
theorem C10_witness :
    cachedsign envAllOk "bin" ⟨[], []⟩ =
      .cont ⟨addFile (signame "bin" "uefi_ca") [], []⟩ ∧
    signame "bin" "uefi_db" ≠ signame "bin" "uefi_ca" := by
  have h := C10_cached_fixed_label envAllOk "bin" "uefi_db" ⟨[], []⟩
    rfl rfl rfl (by decide)
  exact ⟨h.1, h.2.1⟩

/-- Processing a prefix of plain (neither vendor nor authority) keys
whose local signing succeeds just accumulates their artifacts. -/
theorem processKeys_plain (env : SignEnv) (iname : String)
    (allKeys : List String) :
    ∀ (pre rest : List String) (s : RunState),
      (∀ p ∈ pre, isVendorTrustKey p = false ∧ isAuthorityKey p = false ∧
        env.localsignOk p = true) →
      processKeys env iname allKeys (pre ++ rest) s =
        processKeys env iname allKeys rest
          ⟨plainFiles iname pre s.files, s.msgs⟩ := by
  intro pre
  induction pre with
  | nil =>
    intro rest s _
    rfl
  | cons p pre ih =>
    intro rest s h
    obtain ⟨hv, hu, hl⟩ := h p (List.mem_cons_self p pre)
    have hrest := fun q hq => h q (List.mem_cons_of_mem p hq)
    simp only [List.cons_append, processKeys, hv, hu, Bool.and_false,
      Bool.false_eq_true, if_false, localsign, hl, if_true]
    exact ih rest ⟨addFile (signame iname p) s.files, s.msgs⟩ hrest

/-- Every file accumulated by `plainFiles` is either pre-existing or the
artifact of one of the signed keys. -/
theorem mem_plainFiles (iname : String) :
    ∀ (ks fs : List String) (f : String),
      f ∈ plainFiles iname ks fs →
      f ∈ fs ∨ ∃ q ∈ ks, f = signame iname q := by
  intro ks
  induction ks with
  | nil => intro fs f h; exact Or.inl h
  | cons k ks ih =>
    intro fs f h
    rcases ih (addFile (signame iname k) fs) f h with hf | ⟨q, hq, rfl⟩
    · rcases mem_addFile.mp hf with rfl | hf'
      · exact Or.inr ⟨k, List.mem_cons_self k ks, rfl⟩
      · exact Or.inl hf'
    · exact Or.inr ⟨q, List.mem_cons_of_mem k hq, rfl⟩

/-- On an official run where every key is non-authority and its backend
succeeds, the key loop continues with the same messages and a file set
that (i) keeps every pre-existing non-temporary file, (ii) contains every
key's artifact, and (iii) contains nothing but pre-existing files and
those artifacts. -/
theorem processKeys_all_ok (env : SignEnv) (iname : String)
    (allKeys : List String) (ho : env.official = true) :
    ∀ (ks : List String) (s : RunState),
      (∀ q ∈ ks, isAuthorityKey q = false ∧
        (isVendorTrustKey q = true →
          env.signcOk q = true ∧ env.remoteDetachOk q = true) ∧
        (isVendorTrustKey q = false → env.localsignOk q = true)) →
      ∃ fs', processKeys env iname allKeys ks s = .cont ⟨fs', s.msgs⟩ ∧
        (∀ f ∈ s.files, (∀ k, f ≠ remoteTmpName iname k) → f ∈ fs') ∧
        (∀ q ∈ ks, signame iname q ∈ fs') ∧
        (∀ f ∈ fs', f ∈ s.files ∨ ∃ q ∈ ks, f = signame iname q) := by
  intro ks
  induction ks with
  | nil =>
    intro s _
    exact ⟨s.files, rfl, fun f hf _ => hf,
      fun q hq => absurd hq (List.not_mem_nil q),
      fun f hf => Or.inl hf⟩
  | cons q ks ih =>
    intro s h
    obtain ⟨hu, hvok, hlok⟩ := h q (List.mem_cons_self q ks)
    have hrest := fun r hr => h r (List.mem_cons_of_mem q hr)
    by_cases hv : isVendorTrustKey q = true
    · obtain ⟨hsc, hrd⟩ := hvok hv
      have hstep : processKeys env iname allKeys (q :: ks) s =
          processKeys env iname allKeys ks
            ⟨removeFile (remoteTmpName iname q)
              (addFile (signame iname q)
                (addFile (remoteTmpName iname q) s.files)), s.msgs⟩ := by
        simp [processKeys, ho, hv, hu, remotesign, hsc, hrd]
      obtain ⟨fs', heq, hmono, hsigs, hchar⟩ :=
        ih ⟨removeFile (remoteTmpName iname q)
              (addFile (signame iname q)
                (addFile (remoteTmpName iname q) s.files)), s.msgs⟩ hrest
      have hmem1 : ∀ f, f ∈ s.files ∨ f = signame iname q →
          (∀ k, f ≠ remoteTmpName iname k) →
          f ∈ removeFile (remoteTmpName iname q)
            (addFile (signame iname q) (addFile (remoteTmpName iname q) s.files)) := by
        intro f hf hnt
        refine List.mem_filter.mpr ⟨?_, ?_⟩
        · rcases hf with hf | rfl
          · exact mem_addFile.mpr (Or.inr (mem_addFile.mpr (Or.inr hf)))
          · exact mem_addFile.mpr (Or.inl rfl)
        · simp only [Bool.not_eq_eq_eq_not, Bool.not_true, beq_eq_false_iff_ne]
          exact hnt q
      refine ⟨fs', hstep.trans heq, ?_, ?_, ?_⟩
      · intro f hf hnt
        exact hmono f (hmem1 f (Or.inl hf) hnt) hnt
      · intro r hr
        rcases List.mem_cons.mp hr with rfl | hr'
        · exact hmono (signame iname r) (hmem1 _ (Or.inr rfl)
            (signame_ne_remoteTmpName iname r))
            (signame_ne_remoteTmpName iname r)
        · exact hsigs r hr'
      · intro f hf
        rcases hchar f hf with hf' | ⟨r, hr, rfl⟩
        · have hin := List.mem_filter.mp hf'
          rcases mem_addFile.mp hin.1 with rfl | hin'
          · exact Or.inr ⟨q, List.mem_cons_self q ks, rfl⟩
          · rcases mem_addFile.mp hin' with rfl | hfs
            · exfalso
              have := hin.2
              simp at this
            · exact Or.inl hfs
        · exact Or.inr ⟨r, List.mem_cons_of_mem q hr, rfl⟩
    · have hv' : isVendorTrustKey q = false := Bool.eq_false_iff.mpr hv
      have hl := hlok hv'
      have hstep : processKeys env iname allKeys (q :: ks) s =
          processKeys env iname allKeys ks
            ⟨addFile (signame iname q) s.files, s.msgs⟩ := by
        simp [processKeys, hv', hu, localsign, hl]
      obtain ⟨fs', heq, hmono, hsigs, hchar⟩ :=
        ih ⟨addFile (signame iname q) s.files, s.msgs⟩ hrest
      refine ⟨fs', hstep.trans heq, ?_, ?_, ?_⟩
      · intro f hf hnt
        exact hmono f (mem_addFile.mpr (Or.inr hf)) hnt
      · intro r hr
        rcases List.mem_cons.mp hr with rfl | hr'
        · exact hmono (signame iname r) (mem_addFile.mpr (Or.inl rfl))
            (signame_ne_remoteTmpName iname r)
        · exact hsigs r hr'
      · intro f hf
        rcases hchar f hf with hf' | ⟨r, hr, rfl⟩
        · rcases mem_addFile.mp hf' with rfl | hfs
          · exact Or.inr ⟨q, List.mem_cons_self q ks, rfl⟩
          · exact Or.inl hfs
        · exact Or.inr ⟨r, List.mem_cons_of_mem q hr, rfl⟩

/-- When every key's artifact is present and its attach call succeeds,
the attach loop attaches all keys in order and ends with the final
cleanup. -/
theorem attachKeys_all_ok (env : SignEnv) (iname : String)
    (allKeys : List String) :
    ∀ (ks : List String) (s : RunState) (acc : List String),
      (∀ q ∈ ks, env.attachOk q = true ∧ signame iname q ∈ s.files) →
      attachKeys env iname allKeys ks s acc =
        ⟨true, cleanup iname allKeys s.files, s.msgs, true, acc ++ ks⟩ := by
  intro ks
  induction ks with
  | nil => intro s acc _; simp [attachKeys]
  | cons q ks ih =>
    intro s acc h
    obtain ⟨ha, hmem⟩ := h q (List.mem_cons_self q ks)
    have hrest := fun r hr => h r (List.mem_cons_of_mem q hr)
    simp only [attachKeys]
    rw [if_pos ⟨hmem, ha⟩, ih s (acc ++ [q]) hrest]
    simp

/-- C3.  A key list containing a vendor-trust key: on a non-official run
the orchestrator aborts the whole run at the first vendor key (exit 0,
no output binary, nothing attached, all artifacts cleaned up, the
developer-build message printed); on an official run — all backends and
attach calls succeeding — it produces the output binary with all
signatures attached in the order the keys were specified and cleans all
artifacts. -/
theorem C3_vendor_key_policy (envDev envOff : SignEnv) (iname : String)
    (pre post : List String) (k : String)
    (hdev : envDev.official = false)
    (hpre : ∀ p ∈ pre, isVendorTrustKey p = false ∧ isAuthorityKey p = false ∧
      envDev.localsignOk p = true)
    (hk : isVendorTrustKey k = true)
    (hoff : envOff.official = true)
    (hok : ∀ q ∈ pre ++ k :: post, isAuthorityKey q = false ∧
      (isVendorTrustKey q = true →
        envOff.signcOk q = true ∧ envOff.remoteDetachOk q = true) ∧
      (isVendorTrustKey q = false → envOff.localsignOk q = true))
    (hatt : ∀ q ∈ pre ++ k :: post, envOff.attachOk q = true)
    (hcp : envOff.copyOk = true) :
    sign_main envDev (pre ++ k :: post) iname =
      ⟨true, [], [devBuildMsg k], false, []⟩ ∧
    sign_main envOff (pre ++ k :: post) iname =
      ⟨true, [], [], true, pre ++ k :: post⟩ := by
  constructor
  · have hcl : cleanup iname (pre ++ k :: post) (plainFiles iname pre []) = [] := by
      apply cleanup_eq_nil
      intro f hf
      rcases mem_plainFiles iname pre [] f hf with h0 | ⟨q, hq, rfl⟩
      · simp at h0
      · exact ⟨q, List.mem_append_left _ hq, rfl⟩
    have hrun : processKeys envDev iname (pre ++ k :: post)
        (pre ++ k :: post) ⟨[], []⟩ =
        .skipExit ⟨[], [devBuildMsg k]⟩ := by
      rw [processKeys_plain envDev iname (pre ++ k :: post) pre (k :: post)
        ⟨[], []⟩ hpre]
      simp [processKeys, hdev, hk, hcl]
    simp [sign_main, hrun]
  · obtain ⟨fs', heq, _, hsigs, hchar⟩ :=
      processKeys_all_ok envOff iname (pre ++ k :: post) hoff
        (pre ++ k :: post) ⟨[], []⟩ hok
    have hcl : cleanup iname (pre ++ k :: post) fs' = [] := by
      apply cleanup_eq_nil
      intro f hf
      rcases hchar f hf with h0 | h1
      · simp at h0
      · exact h1
    have hattach := attachKeys_all_ok envOff iname (pre ++ k :: post)
      (pre ++ k :: post) ⟨fs', []⟩ []
      (fun q hq => ⟨hatt q hq, hsigs q hq⟩)
    simp only [sign_main, heq, hcp, if_true] at *
    simp [hattach, hcl]

/-- C3, witness: the spec's example list on a developer run and on an
official run. -/
theorem C3_witness :
    sign_main envDevAllOk ["testKeyA", "vmwareKeyB"] "bin" =
      ⟨true, [], [devBuildMsg "vmwareKeyB"], false, []⟩ ∧
    sign_main envAllOk ["testKeyA", "vmwareKeyB"] "bin" =
      ⟨true, [], [], true, ["testKeyA", "vmwareKeyB"]⟩ := by
  have h := C3_vendor_key_policy envDevAllOk envAllOk "bin" ["testKeyA"] []
    "vmwareKeyB" rfl (by decide) (by decide) rfl (by decide) (by decide) rfl
  exact ⟨h.1, h.2⟩

/-- C4, counterexample.  `k1` signs, then `k2`'s local signing fails:
the run dies with the exception (non-zero exit) and `k1`'s
detached-signature artifact is left on disk — cleanup did not run,
contradicting the claimed all-paths cleanup guarantee. -/
theorem C4_counterexample :
    (sign_main envC4x ["k1", "k2"] "bin").exit0 = false ∧
    (sign_main envC4x ["k1", "k2"] "bin").files = [signame "bin" "k1"] := by
  decide

/-- C4, amended.  Artifact cleanup runs on the normal completion path
(first conjunct: all artifacts deleted) but **not** on every exit path:
a fatal backend failure propagates as an exception with no cleanup
(second conjunct: the prefix's artifacts survive), and the
missing-cached-signature `exit(0)` also performs no cleanup (third
conjunct).  (The vendor-policy abort does clean all keys; see C3.) -/
theorem C4_cleanup_partial (envOk envF envNC : SignEnv) (iname : String)
    (ks pre rest : List String) (kf : String)
    (hoff : envOk.official = true)
    (hok : ∀ q ∈ ks, isAuthorityKey q = false ∧
      (isVendorTrustKey q = true →
        envOk.signcOk q = true ∧ envOk.remoteDetachOk q = true) ∧
      (isVendorTrustKey q = false → envOk.localsignOk q = true))
    (hatt : ∀ q ∈ ks, envOk.attachOk q = true)
    (hcp : envOk.copyOk = true)
    (hpreF : ∀ p ∈ pre, isVendorTrustKey p = false ∧ isAuthorityKey p = false ∧
      envF.localsignOk p = true)
    (hkfv : isVendorTrustKey kf = false) (hkfu : isAuthorityKey kf = false)
    (hkfl : envF.localsignOk kf = false)
    (hpreNC : ∀ p ∈ pre, isVendorTrustKey p = false ∧
      isAuthorityKey p = false ∧ envNC.localsignOk p = true)
    (hnc : envNC.cacheExists = false) :
    (sign_main envOk ks iname).files = [] ∧
    sign_main envF (pre ++ kf :: rest) iname =
      ⟨false, plainFiles iname pre [], [], false, []⟩ ∧
    sign_main envNC (pre ++ "uefi_ca" :: rest) iname =
      ⟨true, plainFiles iname pre [], [uefiNoCacheMsg], false, []⟩ := by
  refine ⟨?_, ?_, ?_⟩
  · obtain ⟨fs', heq, _, hsigs, hchar⟩ :=
      processKeys_all_ok envOk iname ks hoff ks ⟨[], []⟩ hok
    have hcl : cleanup iname ks fs' = [] := by
      apply cleanup_eq_nil
      intro f hf
      rcases hchar f hf with h0 | h1
      · simp at h0
      · exact h1
    have hattach := attachKeys_all_ok envOk iname ks ks ⟨fs', []⟩ []
      (fun q hq => ⟨hatt q hq, hsigs q hq⟩)
    simp [sign_main, heq, hcp, hattach, hcl]
  · have hrun : processKeys envF iname (pre ++ kf :: rest)
        (pre ++ kf :: rest) ⟨[], []⟩ =
        .fatal ⟨plainFiles iname pre [], []⟩ := by
      rw [processKeys_plain envF iname (pre ++ kf :: rest) pre (kf :: rest)
        ⟨[], []⟩ hpreF]
      simp [processKeys, hkfv, hkfu, localsign, hkfl]
    simp [sign_main, hrun]
  · have hvm : isVendorTrustKey "uefi_ca" = false := by decide
    have hau : isAuthorityKey "uefi_ca" = true := by decide
    have hrun : processKeys envNC iname (pre ++ "uefi_ca" :: rest)
        (pre ++ "uefi_ca" :: rest) ⟨[], []⟩ =
        .skipExit ⟨plainFiles iname pre [], [uefiNoCacheMsg]⟩ := by
      rw [processKeys_plain envNC iname (pre ++ "uefi_ca" :: rest) pre
        ("uefi_ca" :: rest) ⟨[], []⟩ hpreNC]
      simp [processKeys, hvm, hau, cachedsign, hnc]
    simp [sign_main, hrun]

/-- C4, witness: one run of each analysed path — full success (no files
left), fatal local signing (prefix artifact left), missing cached
signature (prefix artifact left). -/
theorem C4_witness :
    (sign_main envAllOk ["wk"] "bin").files = [] ∧
    sign_main envC4x ["k1", "k2"] "bin" =
      ⟨false, plainFiles "bin" ["k1"] [], [], false, []⟩ ∧
    sign_main envC4nc ["k1", "uefi_ca"] "bin" =
      ⟨true, plainFiles "bin" ["k1"] [], [uefiNoCacheMsg], false, []⟩ :=
  C4_cleanup_partial envAllOk envC4x envC4nc "bin" ["wk"] ["k1"] [] "k2"
    rfl (by decide) (by decide) rfl (by decide) (by decide) (by decide)
    (by decide) (by decide) rfl
